import Mathlib

/-!
# Verification of the IMDb Top-250 scraper's extraction pipeline

A shallow embedding of `src/scraper.py` and proofs about its behaviour.

Modelling conventions:
* Python `str` is modelled as Lean `String` (a sequence of code points);
  the Python string operations actually used by the scraper
  (single-character `replace`, `strip`, `in`, `split`, `join`) are
  re-implemented below over `List Char` so that they compute by kernel
  reduction.
* Python `float` is modelled exactly: a finite IEEE-754 binary64 value is
  represented by the rational number it denotes, and every operation
  (decimal-literal parsing, multiplication) rounds its exact rational
  result to 53 significant bits with round-to-nearest, ties-to-even
  (`roundD`).  Overflow and subnormals are not modelled: all values
  arising in this program are far inside the normal range.
* Fallible Python code (`float(...)`/`int(...)` on malformed text, the
  `raise` in `fetch_page`) is embedded with `Except PyErr`.
* The DOM is abstracted: a list-page entry (`MovieElement`) and a detail
  page (`DetailPage`) record, for each CSS selector the code uses, the
  stripped text (or attribute) of the matched node, `none` when the node
  is missing.  Network fetching is abstracted into explicit arguments.
-/

set_option maxRecDepth 16384

namespace Scraper

/-- A raised Python exception. -/
inductive PyErr where
  /-- `ValueError` from `float()`/`int()` on a malformed literal; carries
  the offending string. -/
  | valueError (arg : String) : PyErr
  /-- A plain `Exception(msg)` (the scraper's fetch failure). -/
  | exception (msg : String) : PyErr
  /-- A transport-level fault raised inside the HTTP client. -/
  | transport (info : String) : PyErr
deriving DecidableEq, Repr

/-- A scalar value stored in a movie-record dictionary: Python `str`,
`int` or `None`. -/
inductive Val where
  | str (s : String) : Val
  | int (n : Int) : Val
  | none : Val
deriving DecidableEq, Repr

/-! ## Python string primitives over `List Char` -/

/-- `s.replace(old, new)` for a single-character pattern `old` (the only
shape the scraper uses), over code-point lists. -/
def replaceCh (old : Char) (new : List Char) : List Char → List Char
  | [] => []
  | c :: cs => (if c = old then new else [c]) ++ replaceCh old new cs

/-- Python `s.replace(old, new)` with a one-character `old`. -/
def pyReplace1 (s : String) (old : Char) (new : String) : String :=
  String.mk (replaceCh old new.data s.data)

/-- Python `s.strip()`: drop whitespace from both ends. -/
def pyStrip (s : String) : String :=
  String.mk (((s.data.dropWhile Char.isWhitespace).reverse.dropWhile
    Char.isWhitespace).reverse)

/-- Python `c in s` for a one-character needle. -/
def pyContains (s : String) (c : Char) : Bool :=
  s.data.contains c

/-- Numeric value of a list of decimal digits (most significant first). -/
def digitsVal (l : List Char) : Nat :=
  l.foldl (fun n c => 10 * n + (c.toNat - 48)) 0

/-! ## Exact model of IEEE-754 binary64 rounding

Rationals are represented by explicit numerator/denominator pairs with
a positive denominator (`Q`); no gcd normalisation is performed, so
every operation is structurally recursive and reduces inside the
kernel (Mathlib's `ℚ` blocks kernel evaluation behind its algebraic
instances). -/

/-- An exact rational `n / d`; every constructor used below keeps
`d > 0`. -/
structure Q where
  n : ℤ
  d : ℤ
deriving DecidableEq, Repr

/-- Exact product. -/
def qMul (a b : Q) : Q := ⟨a.n * b.n, a.d * b.d⟩

/-- Exact difference. -/
def qSub (a b : Q) : Q := ⟨a.n * b.d - b.n * a.d, a.d * b.d⟩

/-- Negation. -/
def qNeg (a : Q) : Q := ⟨-a.n, a.d⟩

/-- `a < b`, by cross-multiplication (valid since denominators are kept
positive). -/
def qLtB (a b : Q) : Bool := a.n * b.d < b.n * a.d

/-- `⌊a⌋` (for a positive denominator, Euclidean division of the
numerator is floor division). -/
def qFloor (a : Q) : ℤ := Int.ediv a.n a.d

/-- Fuelled binary logarithm: `log2Go fuel n = ⌊log₂ n⌋` whenever
`fuel` bounds the number of halvings (for `n ≥ 1`, `fuel = n` always
suffices). -/
def log2Go : Nat → Nat → Nat
  | 0, _ => 0
  | fuel + 1, n => if 2 ≤ n then log2Go fuel (n / 2) + 1 else 0

/-- `⌊log₂ n⌋` (0 at 0), structurally recursive so that it reduces
inside the kernel (`Nat.log2` is defined by well-founded recursion and
does not). -/
def natLog2 (n : Nat) : Nat := log2Go n n

/-- `2 ^ e` for an integer exponent, as an exact rational. -/
def pow2Z (e : ℤ) : Q :=
  if 0 ≤ e then ⟨Int.ofNat (Nat.pow 2 e.toNat), 1⟩
  else ⟨1, Int.ofNat (Nat.pow 2 (-e).toNat)⟩

/-- `⌊log₂ x⌋` for a positive rational `x` (junk value elsewhere). -/
def qFloorLog2 (x : Q) : ℤ :=
  let e0 : ℤ := (natLog2 x.n.natAbs : ℤ) - (natLog2 x.d.natAbs : ℤ)
  if qLtB x (pow2Z e0) then e0 - 1 else e0

/-- Round a rational to an integer, half to even. -/
def rhe (m : Q) : ℤ :=
  let n := qFloor m
  let f := qSub m ⟨n, 1⟩
  if qLtB f ⟨1, 2⟩ then n
  else if qLtB ⟨1, 2⟩ f then n + 1
  else if n % 2 = 0 then n else n + 1

/-- Round-to-nearest, ties-to-even at 53 significant bits: the exact
value of the IEEE-754 binary64 double nearest to `x` (overflow and
subnormals not modelled: every value this program computes is far
inside the normal range). -/
def roundD (x : Q) : Q :=
  if x.n = 0 then ⟨0, 1⟩
  else
    let ax := if x.n < 0 then qNeg x else x
    let e := qFloorLog2 ax
    let m := rhe (qMul ax (pow2Z (52 - e)))
    let r := qMul ⟨m, 1⟩ (pow2Z (e - 52))
    if x.n < 0 then qNeg r else r

/-- Double-precision multiplication: round the exact product. -/
def fpMul (a b : Q) : Q := roundD (qMul a b)

/-- Python `int(x)` for a float `x`: truncate toward zero. -/
def pyTrunc (q : Q) : ℤ :=
  if 0 ≤ q.n then qFloor q else -(qFloor (qNeg q))

/-- Parse a decimal literal `[ws] [sign] digits [. digits] [ws]` to its
exact rational value.  This is the subset of Python's `float()` literal
grammar exercised by the scraper (no exponents, underscores, `inf` or
`nan`). -/
def parseDecimal (s : String) : Option Q :=
  let l := (s.data.dropWhile Char.isWhitespace).reverse.dropWhile
    Char.isWhitespace |>.reverse
  let (sgn, l₁) : ℤ × List Char :=
    match l with
    | '-' :: r => (-1, r)
    | '+' :: r => (1, r)
    | r => (1, r)
  let intPart := l₁.takeWhile Char.isDigit
  let r₁ := l₁.dropWhile Char.isDigit
  match r₁ with
  | [] =>
    if intPart = [] then Option.none
    else Option.some ⟨sgn * (digitsVal intPart : ℤ), 1⟩
  | '.' :: r₂ =>
    let fracPart := r₂.takeWhile Char.isDigit
    let r₃ := r₂.dropWhile Char.isDigit
    if r₃ = [] ∧ (intPart ≠ [] ∨ fracPart ≠ []) then
      let den := Nat.pow 10 fracPart.length
      Option.some ⟨sgn * ((digitsVal intPart : ℤ) * (den : ℤ) +
        (digitsVal fracPart : ℤ)), (den : ℤ)⟩
    else Option.none
  | _ => Option.none

/-- Python `float(s)`: parse the decimal literal and round it to the
nearest binary64 value. -/
def pyFloat (s : String) : Option Q :=
  (parseDecimal s).map roundD

/-- Python `int(s)` on a string: `[ws] [sign] digits [ws]`. -/
def pyIntStr (s : String) : Option ℤ :=
  let l := (s.data.dropWhile Char.isWhitespace).reverse.dropWhile
    Char.isWhitespace |>.reverse
  let (sgn, l₁) : ℤ × List Char :=
    match l with
    | '-' :: r => (-1, r)
    | '+' :: r => (1, r)
    | r => (1, r)
  if l₁ ≠ [] ∧ l₁.all Char.isDigit then
    Option.some (sgn * (digitsVal l₁ : ℤ))
  else Option.none

/-! ## Constants (`scraper.py` top level) -/

/-- `URL = "https://www.imdb.com/chart/top/"` -/
def URL : String := "https://www.imdb.com/chart/top/"

/-- `BASE_URL = "https://www.imdb.com"` -/
def BASE_URL : String := "https://www.imdb.com"

/-! ## `clean_votes` -/

/-- `clean_votes(votes_text)` from `scraper.py`: convert votes text like
`"(3.2M)"` to a number.  `None` (absent) is `Except.ok Option.none`; the
`ValueError` that `float()`/`int()` raise on malformed text is
`Except.error`. -/
def clean_votes (votes_text : String) : Except PyErr (Option ℤ) :=
  if votes_text = "" ∨ votes_text = "N/A" then .ok Option.none
  else
    let cleaned := pyStrip (pyReplace1 (pyReplace1 votes_text '(' "") ')' "")
    if pyContains cleaned 'M' then
      let t := pyReplace1 (pyReplace1 cleaned 'M' "") ',' "."
      match pyFloat t with
      | Option.some number => .ok (Option.some (pyTrunc (fpMul number ⟨1000000, 1⟩)))
      | Option.none => .error (.valueError t)
    else if pyContains cleaned 'K' then
      let t := pyReplace1 (pyReplace1 cleaned 'K' "") ',' "."
      match pyFloat t with
      | Option.some number => .ok (Option.some (pyTrunc (fpMul number ⟨1000, 1⟩)))
      | Option.none => .error (.valueError t)
    else
      let t := pyReplace1 (pyReplace1 cleaned ',' "") '.' ""
      match pyIntStr t with
      | Option.some n => .ok (Option.some n)
      | Option.none => .error (.valueError t)

/-! ### Spec-side restatement of the vote-count policy

Written from the specification's wording ("strip parentheses/whitespace;
if it contains `M`, parse the numeric prefix (treating `.` as decimal
separator) and multiply by 1,000,000, truncating to an integer; if it
contains `K`, same with multiplier 1,000; otherwise strip thousands
separators and decimal points and parse as a plain integer.  Input `N/A`
or empty yields an explicit absent value").  The spec's "numeric prefix"
is read as the text with the unit marker removed — in every well-formed
input the unit letter follows the number — and, per the spec, a comma in
that prefix is read as a decimal separator.  The arithmetic is the
reference (binary64) arithmetic the spec demands when it asks to
"reproduce exactly this branching, including the truncation-toward-zero
behavior of the final integer conversion". -/

/-- Spec wording: "stripping parentheses and whitespace". -/
def stripParensWs (s : String) : String :=
  pyStrip (pyReplace1 (pyReplace1 s '(' "") ')' "")

/-- Spec wording: the "numeric prefix" of the text relative to a unit
marker, with the decimal separator normalised. -/
def numericPrefix (t : String) (unit : Char) : String :=
  pyReplace1 (pyReplace1 t unit "") ',' "."

/-- Spec wording: parse a decimal, scale by the unit multiplier,
truncate toward zero. -/
def scaledValue (t : String) (unit : Char) (mult : Q) : Except PyErr (Option ℤ) :=
  match pyFloat (numericPrefix t unit) with
  | Option.some q => .ok (Option.some (pyTrunc (fpMul q mult)))
  | Option.none => .error (.valueError (numericPrefix t unit))

/-- Spec wording: "strip thousands separators and decimal points and
parse as a plain integer". -/
def plainIntValue (t : String) : Except PyErr (Option ℤ) :=
  match pyIntStr (pyReplace1 (pyReplace1 t ',' "") '.' "") with
  | Option.some n => .ok (Option.some n)
  | Option.none => .error (.valueError (pyReplace1 (pyReplace1 t ',' "") '.' ""))

/-- The vote-count normalisation policy as the specification states it. -/
def clean_votes_spec (votes_text : String) : Except PyErr (Option ℤ) :=
  if votes_text = "" ∨ votes_text = "N/A" then .ok Option.none
  else
    let t := stripParensWs votes_text
    if pyContains t 'M' then scaledValue t 'M' ⟨1000000, 1⟩
    else if pyContains t 'K' then scaledValue t 'K' ⟨1000, 1⟩
    else plainIntValue t

/-! ## `clean_title` -/

/-- First index at which `sep` occurs as a contiguous run in `s`. -/
def findSubIdx? (sep : List Char) : List Char → Option Nat
  | [] => if sep.isEmpty then Option.some 0 else Option.none
  | c :: cs =>
    if sep.isPrefixOf (c :: cs) then Option.some 0
    else (findSubIdx? sep cs).map (· + 1)

/-- Python `s.split(sep, 1)` (at most one split, on the first
occurrence of `sep`). -/
def pySplit1 (sep : String) (s : String) : List String :=
  match findSubIdx? sep.data s.data with
  | Option.none => [s]
  | Option.some i =>
    [String.mk (s.data.take i), String.mk (s.data.drop (i + sep.data.length))]

/-- `clean_title(title_text)` from `scraper.py`: remove the ranking
number from a title.  The argument is `Option String` because Python's
`not title_text` also catches an absent (`None`) title. -/
def clean_title (title_text : Option String) : String :=
  match title_text with
  | Option.none => "N/A"
  | Option.some s =>
    if s = "" then "N/A"
    else
      match pySplit1 ". " s with
      | [_, t] => t
      | _ => s

/-! ## The DOM abstraction and `extract_movie_link` -/

/-- One `li.ipc-metadata-list-summary-item` entry of the list page, seen
through the five selectors `extract_basic_data` / `extract_movie_link`
use.  Each field holds the stripped text (or attribute value) of the
matched node; `Option.none` means the node is missing.  For the image
and link nodes the inner `Option` is the `src`/`href` attribute, which
can itself be absent on a present node. -/
structure MovieElement where
  /-- text of `h3.ipc-title__text` -/
  titleText : Option String
  /-- texts of `span.cli-title-metadata-item` (in document order) -/
  metadataItems : List String
  /-- text of `span.ipc-rating-star--rating` -/
  ratingText : Option String
  /-- text of `span.ipc-rating-star--voteCount` -/
  votesText : Option String
  /-- `img.ipc-image` node with its `src` attribute -/
  imgSrc : Option (Option String)
  /-- `a.ipc-title-link-wrapper` node with its `href` attribute -/
  linkHref : Option (Option String)
deriving DecidableEq, Repr

/-- `href.split("?")[0]`: the part before the first `?`. -/
def beforeQuery (href : String) : String :=
  String.mk (href.data.takeWhile (fun c => c != '?'))

/-- `extract_movie_link(movie_element)` from `scraper.py`: full URL of
the movie's detail page, `None` when the link node is missing
(`link_tag.get("href", "")` defaults a missing attribute to `""`). -/
def extract_movie_link (movie_element : MovieElement) : Option String :=
  match movie_element.linkHref with
  | Option.some hrefAttr =>
    let href := hrefAttr.getD ""
    Option.some (BASE_URL ++ beforeQuery href)
  | Option.none => Option.none

/-! ## `extract_basic_data` -/

/-- `extract_basic_data(movie_element)` from `scraper.py`, as the
insertion-ordered dictionary it builds.  The only field whose
computation can raise is the vote count (`clean_votes` is not wrapped in
any handler), hence the `Except`. -/
def extract_basic_data (movie_element : MovieElement) :
    Except PyErr (List (String × Val)) :=
  let raw_title := movie_element.titleText.getD "N/A"
  let title := clean_title (Option.some raw_title)
  let year := match movie_element.metadataItems with
    | [] => "N/A"
    | y :: _ => y
  let rating := movie_element.ratingText.getD "N/A"
  let votes_raw := movie_element.votesText.getD "N/A"
  match clean_votes votes_raw with
  | .error e => .error e
  | .ok votes =>
    let image_url : Val := match movie_element.imgSrc with
      | Option.some (Option.some src) => .str src
      | Option.some Option.none => .none
      | Option.none => .str "N/A"
    let detail_url : Val := match extract_movie_link movie_element with
      | Option.some u => .str u
      | Option.none => .none
    .ok [("title", .str title), ("year", .str year), ("rating", .str rating),
      ("votes", match votes with
        | Option.some n => .int n
        | Option.none => .none),
      ("image_url", image_url), ("detail_url", detail_url)]

/-! ## `", ".join` and splitting back on `", "` -/

/-- `", ".join(parts)` over code-point lists. -/
def joinChCS : List (List Char) → List Char
  | [] => []
  | [p] => p
  | p :: ps => p ++ ',' :: ' ' :: joinChCS ps

/-- Python `", ".join(parts)`. -/
def pyJoinCS (parts : List String) : String :=
  String.mk (joinChCS (parts.map String.data))

/-- Worker for splitting on the separator `", "`: `acc` is the current
segment, reversed. -/
def splitAuxCS : List Char → List Char → List (List Char)
  | [], acc => [acc.reverse]
  | [c], acc => [acc.reverse ++ [c]]
  | c₁ :: c₂ :: rest, acc =>
    if c₁ = ',' ∧ c₂ = ' ' then acc.reverse :: splitAuxCS rest []
    else splitAuxCS (c₂ :: rest) (c₁ :: acc)

/-- Python `s.split(", ")`. -/
def pySplitCS (s : String) : List String :=
  (splitAuxCS s.data []).map String.mk

/-- Does `", "` occur in the list? -/
def hasCS : List Char → Bool
  | [] => false
  | [_] => false
  | c₁ :: c₂ :: rest =>
    if c₁ = ',' ∧ c₂ = ' ' then true else hasCS (c₂ :: rest)

/-! ## `extract_movie_details` -/

/-- A movie's detail page, seen through the six selectors
`extract_movie_details` uses; texts are stripped, `Option.none` marks a
missing node. -/
structure DetailPage where
  /-- texts of `a.ipc-chip span` (genre chips, in document order) -/
  genreChips : List String
  /-- text of `li[data-testid='title-techspec_runtime']` -/
  runtimeText : Option String
  /-- texts of `a[href*='tt_ov_1']` (director links) -/
  directorLinks : List String
  /-- texts of `a[href*='tt_ov_2']` (writer links) -/
  writerLinks : List String
  /-- texts of `a[href*='tt_ov_3']` (actor links) -/
  actorLinks : List String
  /-- text of `span[data-testid='plot-l']` -/
  plotText : Option String
deriving DecidableEq, Repr

/-- Attempt the pattern `\d+h\s*\d*m?` at the start of `s`
(leftmost-greedy; no backtracking is needed for this pattern). -/
def durMatchAt (s : List Char) : Option (List Char) :=
  let ds := s.takeWhile Char.isDigit
  let r₁ := s.dropWhile Char.isDigit
  if ds = [] then Option.none
  else
    match r₁ with
    | 'h' :: r₂ =>
      let ws := r₂.takeWhile Char.isWhitespace
      let r₃ := r₂.dropWhile Char.isWhitespace
      let ds₂ := r₃.takeWhile Char.isDigit
      let r₄ := r₃.dropWhile Char.isDigit
      match r₄ with
      | 'm' :: _ => Option.some (ds ++ 'h' :: ws ++ ds₂ ++ ['m'])
      | _ => Option.some (ds ++ 'h' :: ws ++ ds₂)
    | _ => Option.none

/-- `re.search(r'(\d+h\s*\d*m?)', text)`: the leftmost match. -/
def reSearchDur : List Char → Option (List Char)
  | [] => Option.none
  | c :: cs =>
    match durMatchAt (c :: cs) with
    | Option.some m => Option.some m
    | Option.none => reSearchDur cs

/-- `extract_movie_details(detail_url)` from `scraper.py`, with the page
fetch abstracted away (the caller supplies the fetched page; `fetch_page`
is modelled separately) and Python's unspecified `set` iteration order
abstracted into the argument `pySet`: `list(set(l))` is modelled as
`pySet l`, an arbitrary duplicate-free reordering of `l`'s members. -/
def extract_movie_details (pySet : List String → List String)
    (soup : DetailPage) : List (String × Val) :=
  let genres := soup.genreChips
  let duration := match soup.runtimeText with
    | Option.none => "N/A"
    | Option.some raw_text =>
      match reSearchDur raw_text.data with
      | Option.some m => String.mk m
      | Option.none => "N/A"
  let directors := pySet soup.directorLinks
  let writers := pySet soup.writerLinks
  let actors := pySet soup.actorLinks
  let plot := soup.plotText.getD "N/A"
  [("genres", .str (pyJoinCS genres)), ("duration", .str duration),
    ("directors", .str (pyJoinCS directors)),
    ("writers", .str (pyJoinCS writers)),
    ("actors", .str (pyJoinCS actors)), ("plot", .str plot)]

/-! ## `fetch_page` -/

/-- An HTTP response as delivered by the client library. -/
structure HttpResponse where
  status : Nat
  content : String
deriving DecidableEq, Repr

/-- A parsed document (`BeautifulSoup(response.content, "lxml")`);
parsing itself is abstracted, the wrapper just marks the value as
parsed. -/
structure Soup where
  content : String
deriving DecidableEq, Repr

/-- `BeautifulSoup(content, "lxml")`. -/
def parseLxml (content : String) : Soup := ⟨content⟩

/-- `fetch_page(url)` from `scraper.py`.  The argument is the outcome of
`requests.get(url, headers=HEADERS)`: either a transport-level fault
raised inside the client (`Except.error`) or a response.  A non-200
status raises `Exception(f"Failed to fetch page. Status code: {...}")`. -/
def fetch_page (clientResult : Except PyErr HttpResponse) :
    Except PyErr Soup :=
  match clientResult with
  | .error e => .error e
  | .ok response =>
    if response.status ≠ 200 then
      .error (.exception
        ("Failed to fetch page. Status code: " ++ toString response.status))
    else
      .ok (parseLxml response.content)

/-! ## Dictionaries and `movie_data.update(details)` -/

/-- Association-list lookup (first binding wins), the model of reading a
Python dict key. -/
def lookupA (k : String) : List (String × Val) → Option Val
  | [] => Option.none
  | (k', v) :: rest => if k' = k then Option.some v else lookupA k rest

/-- Insert-or-overwrite one key.  On the duplicate-free dictionaries the
scraper builds this is exactly Python's per-key `dict` update: an
existing key keeps its position, a new key is appended. -/
def updIns : List (String × Val) → String → Val → List (String × Val)
  | [], k, v => [(k, v)]
  | (k', v') :: rest, k, v =>
    if k' = k then (k, v) :: rest else (k', v') :: updIns rest k v

/-- Python `d1.update(d2)`. -/
def pyDictUpdate (d₁ d₂ : List (String × Val)) : List (String × Val) :=
  d₂.foldl (fun acc kv => updIns acc kv.1 kv.2) d₁

/-- Python truthiness of a record value (`if movie_data["detail_url"]:`). -/
def pyTruthy : Val → Bool
  | .str s => s ≠ ""
  | .int n => n ≠ 0
  | .none => false

/-! ## `scrape_top_movies` -/

/-- Truthiness of the `limit` argument (`if limit:`): `None` and `0` are
falsy. -/
def limitTruthy : Option Nat → Bool
  | Option.none => false
  | Option.some n => n ≠ 0

/-- `movie_elements[:limit]` guarded by `if limit:`. -/
def applyLimit (limit : Option Nat) (elements : List MovieElement) :
    List MovieElement :=
  if limitTruthy limit then elements.take (limit.getD 0) else elements

/-- The record produced for one list entry: basic data, merged with the
detail dictionary when details are requested and the entry has a truthy
detail URL.  `fetchDetail` abstracts `fetch_page` on a detail URL. -/
def recordOf (include_details : Bool)
    (fetchDetail : String → Except PyErr DetailPage)
    (pySet : List String → List String) (movie_element : MovieElement) :
    Except PyErr (List (String × Val)) :=
  match extract_basic_data movie_element with
  | .error e => .error e
  | .ok movie_data =>
    match lookupA "detail_url" movie_data with
    | Option.some (Val.str u) =>
      if include_details ∧ u ≠ "" then
        match fetchDetail u with
        | .error e => .error e
        | .ok page =>
          .ok (pyDictUpdate movie_data (extract_movie_details pySet page))
      else .ok movie_data
    | _ => .ok movie_data

/-- The `for` loop of `scrape_top_movies`: returns the record list
together with the number of detail-page fetches and of `time.sleep(1)`
calls performed (the observable effects claims speak about; `print`
calls are not modelled). -/
def scrapeLoop (include_details : Bool)
    (fetchDetail : String → Except PyErr DetailPage)
    (pySet : List String → List String) :
    List MovieElement → Except PyErr (List (List (String × Val)) × Nat × Nat)
  | [] => .ok ([], 0, 0)
  | movie_element :: rest =>
    match extract_basic_data movie_element with
    | .error e => .error e
    | .ok movie_data =>
      match lookupA "detail_url" movie_data with
      | Option.some (Val.str u) =>
        if include_details ∧ u ≠ "" then
          match fetchDetail u with
          | .error e => .error e
          | .ok page =>
            let merged :=
              pyDictUpdate movie_data (extract_movie_details pySet page)
            match scrapeLoop include_details fetchDetail pySet rest with
            | .error e => .error e
            | .ok (movies, fetches, sleeps) =>
              .ok (merged :: movies, fetches + 1, sleeps + 1)
        else
          match scrapeLoop include_details fetchDetail pySet rest with
          | .error e => .error e
          | .ok (movies, fetches, sleeps) =>
            .ok (movie_data :: movies, fetches, sleeps)
      | _ =>
        match scrapeLoop include_details fetchDetail pySet rest with
        | .error e => .error e
        | .ok (movies, fetches, sleeps) =>
          .ok (movie_data :: movies, fetches, sleeps)

/-- `scrape_top_movies(limit, include_details)` from `scraper.py`, from
the point where the list page has been fetched and parsed into its
entry elements (`soup.select("li.ipc-metadata-list-summary-item")`);
the per-URL detail fetch and the `set` iteration order are abstracted
as in `recordOf`. -/
def scrape_top_movies (movie_elements : List MovieElement)
    (limit : Option Nat) (include_details : Bool)
    (fetchDetail : String → Except PyErr DetailPage)
    (pySet : List String → List String) :
    Except PyErr (List (List (String × Val)) × Nat × Nat) :=
  scrapeLoop include_details fetchDetail pySet (applyLimit limit movie_elements)

/-! ## Supporting lemmas -/

/-- Decidable equality on raised-or-returned outcomes. -/
instance {ε α : Type} [DecidableEq ε] [DecidableEq α] :
    DecidableEq (Except ε α)
  | .error a, .error b =>
    if h : a = b then isTrue (by rw [h]) else isFalse (by simp [h])
  | .error _, .ok _ => isFalse (by simp)
  | .ok _, .error _ => isFalse (by simp)
  | .ok a, .ok b =>
    if h : a = b then isTrue (by rw [h]) else isFalse (by simp [h])

lemma findSubIdx_eq_none (sep s : List Char) :
    findSubIdx? sep s = Option.none ↔ ¬ sep <:+: s := by
  induction s with
  | nil =>
    by_cases h : sep = []
    · subst h; simp [findSubIdx?]
    · simp [findSubIdx?, h, List.infix_nil]
  | cons c cs ih =>
    rw [findSubIdx?]
    by_cases hp : sep.isPrefixOf (c :: cs)
    · rw [if_pos hp]
      simp [List.infix_cons_iff, (List.isPrefixOf_iff_prefix).mp hp]
    · have hnp : ¬ sep <+: c :: cs := fun hpre =>
        hp ((List.isPrefixOf_iff_prefix).mpr hpre)
      rw [if_neg hp]
      simp [Option.map_eq_none', ih, List.infix_cons_iff, hnp]

lemma takeWhile_append_all {p : Char → Bool} (xs ys : List Char)
    (h : ∀ x ∈ xs, p x = true) :
    (xs ++ ys).takeWhile p = xs ++ ys.takeWhile p := by
  induction xs with
  | nil => simp
  | cons x xs ih =>
    simp only [List.cons_append, List.takeWhile_cons,
      h x (List.mem_cons_self x xs), if_true]
    rw [ih fun a ha => h a (List.mem_cons_of_mem x ha)]

lemma takeWhile_all {p : Char → Bool} (xs : List Char)
    (h : ∀ x ∈ xs, p x = true) : xs.takeWhile p = xs := by
  have := takeWhile_append_all xs [] h
  simpa using this

/-! ## C1: the `clean_votes` branching policy -/

/-- C1.  For every vote-count text input, `clean_votes` follows exactly
the specified branching: empty or `"N/A"` input yields the explicit
absent value; otherwise, after stripping parentheses and whitespace, a
text containing `M` is parsed as a decimal (unit marker removed, comma
read as decimal separator) and scaled by 1,000,000 with truncation
toward zero, a text containing `K` likewise with multiplier 1,000, and
any other text has thousands separators and decimal points stripped and
is parsed as a plain integer. -/
theorem clean_votes_follows_spec_branching :
    ∀ votes_text : String, clean_votes votes_text = clean_votes_spec votes_text := by
  intro votes_text
  rfl

/-- C2 (counterexample).  On `"(4.1M)"` the code returns 4099999, not
`round(4.1 × 1,000,000) = 4100000`: `float("4.1")` is slightly below
4.1 and the scaled product truncates downward. -/
theorem clean_votes_4_1M_not_rounded :
    clean_votes "(4.1M)" = .ok (Option.some 4099999) ∧ (4099999 : ℤ) ≠ 4100000 :=
  ⟨by decide, by decide⟩

/-- The input `"(<d>.<e>M)"` for decimal digits `d`, `e`. -/
def mkMInput (d e : Fin 10) : String :=
  String.mk ['(', Char.ofNat (48 + d.val), '.', Char.ofNat (48 + e.val), 'M', ')']

/-- C2 (amended).  For every one-decimal millions input `"(<d>.<e>M)"`,
`clean_votes` returns the truncation toward zero of the binary64
product, which equals `round(value × 1,000,000)` for every digit pair
except `4.1` and `8.2`, where it is one less; `"(3.2M)"` yields 3200000,
`"(972K)"` yields 972000, and `"N/A"` and `""` both yield the absent
value. -/
theorem clean_votes_one_decimal_millions :
    (∀ d e : Fin 10, clean_votes (mkMInput d e) =
      .ok (Option.some
        (if (d.val = 4 ∧ e.val = 1) ∨ (d.val = 8 ∧ e.val = 2) then
          (d.val : ℤ) * 1000000 + (e.val : ℤ) * 100000 - 1
        else (d.val : ℤ) * 1000000 + (e.val : ℤ) * 100000))) ∧
    clean_votes "(3.2M)" = .ok (Option.some 3200000) ∧
    clean_votes "(972K)" = .ok (Option.some 972000) ∧
    clean_votes "N/A" = .ok Option.none ∧
    clean_votes "" = .ok Option.none := by
  refine ⟨by decide, by decide, by decide, by decide, by decide⟩

/-! ## C5: `clean_title` -/

/-- C5.  `clean_title` maps `"1. Cadena perpetua"` to
`"Cadena perpetua"`; every nonempty string containing no `". "`
separator passes through unchanged; empty or absent input yields
`"N/A"`. -/
theorem clean_title_contract :
    clean_title (Option.some "1. Cadena perpetua") = "Cadena perpetua" ∧
    (∀ s : String, s ≠ "" → ¬ (". ".data <:+: s.data) →
      clean_title (Option.some s) = s) ∧
    clean_title (Option.some "") = "N/A" ∧
    clean_title Option.none = "N/A" := by
  refine ⟨rfl, ?_, rfl, rfl⟩
  intro s hs hinf
  have h := (findSubIdx_eq_none ". ".data s.data).mpr hinf
  simp [clean_title, hs, pySplit1, h]

/-- Witness for C5 at the concrete separator-free title `"Heat"`. -/
theorem clean_title_contract_witness :
    clean_title (Option.some "Heat") = "Heat" :=
  clean_title_contract.2.1 "Heat" (by decide) (by decide)

/-! ## C6: detail-URL construction -/

/-- C6.  `extract_movie_link` maps the relative link
`"/title/tt0111161/?ref_=chttp_t_1"` to
`"https://www.imdb.com/title/tt0111161/"`; in general it strips
everything from the first `?` of the `href` and prefixes the site
origin, and a missing link node yields the absent value. -/
theorem extract_movie_link_contract :
    (∀ el : MovieElement,
      el.linkHref = Option.some (Option.some "/title/tt0111161/?ref_=chttp_t_1") →
      extract_movie_link el = Option.some "https://www.imdb.com/title/tt0111161/") ∧
    (∀ (el : MovieElement) (a b : String),
      el.linkHref = Option.some (Option.some (a ++ "?" ++ b)) → '?' ∉ a.data →
      extract_movie_link el = Option.some (BASE_URL ++ a)) ∧
    (∀ (el : MovieElement) (href : String),
      el.linkHref = Option.some (Option.some href) → '?' ∉ href.data →
      extract_movie_link el = Option.some (BASE_URL ++ href)) ∧
    (∀ el : MovieElement, el.linkHref = Option.none →
      extract_movie_link el = Option.none) := by
  refine ⟨?_, ?_, ?_, ?_⟩
  · intro el h; simp [extract_movie_link, h]; rfl
  · intro el a b h hq
    simp only [extract_movie_link, h, Option.getD_some]
    have hdata : (a ++ "?" ++ b).data = a.data ++ '?' :: b.data := by
      simp [String.data_append]
    have hall : ∀ x ∈ a.data, ((fun c => c != '?') x) = true := by
      intro x hx
      have hne : x ≠ '?' := fun he => hq (by rw [← he]; exact hx)
      simpa using hne
    have htw : (a.data ++ '?' :: b.data).takeWhile (fun c => c != '?') =
        a.data := by
      rw [takeWhile_append_all a.data ('?' :: b.data) hall]
      simp [List.takeWhile_cons]
    simp only [beforeQuery, hdata, htw]
  · intro el href h hq
    simp only [extract_movie_link, h, Option.getD_some]
    have hall : ∀ x ∈ href.data, ((fun c => c != '?') x) = true := by
      intro x hx
      have hne : x ≠ '?' := fun he => hq (by rw [← he]; exact hx)
      simpa using hne
    have htw : href.data.takeWhile (fun c => c != '?') = href.data :=
      takeWhile_all href.data hall
    simp only [beforeQuery, htw]
  · intro el h; simp [extract_movie_link, h]

/-- Witness for C6 at the concrete element of the spec's example. -/
theorem extract_movie_link_contract_witness :
    extract_movie_link
      ⟨Option.none, [], Option.none, Option.none, Option.none,
        Option.some (Option.some "/title/tt0111161/?ref_=chttp_t_1")⟩ =
      Option.some "https://www.imdb.com/title/tt0111161/" :=
  extract_movie_link_contract.1 _ rfl

/-! ## C7: `fetch_page` -/

/-- C7.  `fetch_page` returns the parsed document on HTTP 200; for any
non-200 status it fails with the fetch error whose message ends in the
status code; a transport-level fault from the HTTP client propagates
unmodified. -/
theorem fetch_page_contract :
    (∀ r : HttpResponse, r.status = 200 →
      fetch_page (.ok r) = .ok (parseLxml r.content)) ∧
    (∀ r : HttpResponse, r.status ≠ 200 →
      fetch_page (.ok r) = .error (.exception
        ("Failed to fetch page. Status code: " ++ toString r.status))) ∧
    (∀ e : PyErr, fetch_page (.error e) = .error e) := by
  refine ⟨?_, ?_, ?_⟩
  · intro r h; simp [fetch_page, h]
  · intro r h; simp [fetch_page, h]
  · intro e; rfl

/-- Witness for C7: a 200 response, a 404 response and a transport
fault. -/
theorem fetch_page_contract_witness :
    fetch_page (.ok ⟨200, "page"⟩) = .ok (parseLxml "page") ∧
    fetch_page (.ok ⟨404, "gone"⟩) =
      .error (.exception "Failed to fetch page. Status code: 404") ∧
    fetch_page (.error (.transport "dns failure")) =
      .error (.transport "dns failure") :=
  ⟨fetch_page_contract.1 ⟨200, "page"⟩ rfl,
    fetch_page_contract.2.1 ⟨404, "gone"⟩ (by decide),
    fetch_page_contract.2.2 (.transport "dns failure")⟩

/-! ## C3: best-effort basic extraction -/

/-- C3 (counterexample).  `extract_basic_data` is not total over all
text contents of present nodes: a present vote-count node whose text is
`"abc"` makes `clean_votes` raise a `ValueError` (`int("abc")`), which
no handler swallows. -/
theorem extract_basic_data_can_raise :
    extract_basic_data
      ⟨Option.none, [], Option.none, Option.some "abc", Option.none,
        Option.none⟩ = .error (.valueError "abc") := by
  decide

/-- The dictionary `extract_basic_data` builds, given the already
computed vote count. -/
def basicRecord (movie_element : MovieElement) (votes : Option ℤ) :
    List (String × Val) :=
  [("title", .str (clean_title (Option.some (movie_element.titleText.getD "N/A")))),
    ("year", .str (match movie_element.metadataItems with
      | [] => "N/A"
      | y :: _ => y)),
    ("rating", .str (movie_element.ratingText.getD "N/A")),
    ("votes", match votes with
      | Option.some n => .int n
      | Option.none => .none),
    ("image_url", match movie_element.imgSrc with
      | Option.some (Option.some src) => .str src
      | Option.some Option.none => .none
      | Option.none => .str "N/A"),
    ("detail_url", match extract_movie_link movie_element with
      | Option.some u => .str u
      | Option.none => .none)]

/-- C3 (amended).  `extract_basic_data` never raises because of a
*missing* node: whenever the vote-count text (a present node's text, or
the `"N/A"` fallback) is accepted by `clean_votes`, extraction succeeds,
and every missing node contributes its sentinel (`"N/A"`, or the absent
value for the vote count and the detail URL).  It is not total over all
text contents: a present vote node with unparseable text raises. -/
theorem extract_basic_data_best_effort :
    ∀ el : MovieElement,
      (clean_votes (el.votesText.getD "N/A")).isOk = true →
      ∃ r, extract_basic_data el = .ok r ∧
        (el.titleText = Option.none →
          lookupA "title" r = Option.some (.str "N/A")) ∧
        (el.metadataItems = [] →
          lookupA "year" r = Option.some (.str "N/A")) ∧
        (el.ratingText = Option.none →
          lookupA "rating" r = Option.some (.str "N/A")) ∧
        (el.votesText = Option.none →
          lookupA "votes" r = Option.some .none) ∧
        (el.imgSrc = Option.none →
          lookupA "image_url" r = Option.some (.str "N/A")) ∧
        (el.linkHref = Option.none →
          lookupA "detail_url" r = Option.some .none) := by
  intro el h
  cases hcv : clean_votes (el.votesText.getD "N/A") with
  | error e => rw [hcv] at h; simp [Except.isOk, Except.toBool] at h
  | ok votes =>
    refine ⟨basicRecord el votes, ?_, ?_, ?_, ?_, ?_, ?_, ?_⟩
    · simp only [extract_basic_data, hcv, basicRecord]
    · intro hx; unfold basicRecord; rw [hx]; rfl
    · intro hx; unfold basicRecord; rw [hx]; rfl
    · intro hx; unfold basicRecord; rw [hx]; rfl
    · intro hx
      rw [hx] at hcv
      have h9 : (Except.ok Option.none : Except PyErr (Option ℤ)) = .ok votes := hcv
      cases h9
      unfold basicRecord; rfl
    · intro hx; unfold basicRecord; rw [hx]; rfl
    · intro hx
      unfold basicRecord
      simp [extract_movie_link, hx, lookupA]

/-- Witness for C3 at the element with every node missing. -/
theorem extract_basic_data_best_effort_witness :
    ∃ r, extract_basic_data
        ⟨Option.none, [], Option.none, Option.none, Option.none,
          Option.none⟩ = .ok r ∧
      ((⟨Option.none, [], Option.none, Option.none, Option.none,
          Option.none⟩ : MovieElement).titleText = Option.none →
        lookupA "title" r = Option.some (.str "N/A")) ∧
      ((⟨Option.none, [], Option.none, Option.none, Option.none,
          Option.none⟩ : MovieElement).metadataItems = [] →
        lookupA "year" r = Option.some (.str "N/A")) ∧
      ((⟨Option.none, [], Option.none, Option.none, Option.none,
          Option.none⟩ : MovieElement).ratingText = Option.none →
        lookupA "rating" r = Option.some (.str "N/A")) ∧
      ((⟨Option.none, [], Option.none, Option.none, Option.none,
          Option.none⟩ : MovieElement).votesText = Option.none →
        lookupA "votes" r = Option.some .none) ∧
      ((⟨Option.none, [], Option.none, Option.none, Option.none,
          Option.none⟩ : MovieElement).imgSrc = Option.none →
        lookupA "image_url" r = Option.some (.str "N/A")) ∧
      ((⟨Option.none, [], Option.none, Option.none, Option.none,
          Option.none⟩ : MovieElement).linkHref = Option.none →
        lookupA "detail_url" r = Option.some .none) :=
  extract_basic_data_best_effort _ (by decide)

/-! ## C10: merging detail fields leaves the basic fields unchanged -/

lemma lookupA_updIns_of_ne (d : List (String × Val)) (k k' : String)
    (v : Val) (h : k' ≠ k) : lookupA k (updIns d k' v) = lookupA k d := by
  induction d with
  | nil => simp [updIns, lookupA, h]
  | cons p rest ih =>
    obtain ⟨pk, pv⟩ := p
    by_cases hpk : pk = k'
    · subst hpk
      simp [updIns, lookupA, h]
    · simp only [updIns, hpk, if_false, lookupA]
      by_cases hk : pk = k
      · simp [hk]
      · simp [hk, ih]

/-- C10.  Merging the detail dictionary into a basic record never
changes any of the six basic fields, because the detail keys are
disjoint from the basic keys; the detail fields are only added. -/
theorem merge_details_preserves_basic_fields :
    ∀ (el : MovieElement) (r : List (String × Val))
      (pySet : List String → List String) (page : DetailPage),
      extract_basic_data el = .ok r →
      ∀ k, k ∈ ["title", "year", "rating", "votes", "image_url", "detail_url"] →
        lookupA k (pyDictUpdate r (extract_movie_details pySet page)) =
          lookupA k r := by
  intro el r ps page _ k hk
  have hne : ∀ k' ∈ ["genres", "duration", "directors", "writers",
      "actors", "plot"], k' ≠ k := by
    intro k' hk'
    simp only [List.mem_cons, List.not_mem_nil, or_false] at hk hk'
    rcases hk with rfl | rfl | rfl | rfl | rfl | rfl <;>
      rcases hk' with rfl | rfl | rfl | rfl | rfl | rfl <;> decide
  simp only [extract_movie_details, pyDictUpdate, List.foldl_cons,
    List.foldl_nil]
  rw [lookupA_updIns_of_ne _ _ _ _ (hne "plot" (by simp)),
    lookupA_updIns_of_ne _ _ _ _ (hne "actors" (by simp)),
    lookupA_updIns_of_ne _ _ _ _ (hne "writers" (by simp)),
    lookupA_updIns_of_ne _ _ _ _ (hne "directors" (by simp)),
    lookupA_updIns_of_ne _ _ _ _ (hne "duration" (by simp)),
    lookupA_updIns_of_ne _ _ _ _ (hne "genres" (by simp))]

/-- Model instantiation of Python's unspecified `set` iteration order
used by witnesses and counterexamples: keep the first occurrence of
each member. -/
def pySetDedup (l : List String) : List String := l.dedup

/-- Witness for C10: the vote-count field of the all-missing element's
record survives a merge with an empty detail page's dictionary. -/
theorem merge_details_preserves_basic_fields_witness :
    lookupA "votes"
      (pyDictUpdate
        [("title", .str "N/A"), ("year", .str "N/A"), ("rating", .str "N/A"),
          ("votes", Val.none), ("image_url", .str "N/A"),
          ("detail_url", Val.none)]
        (extract_movie_details pySetDedup
          ⟨[], Option.none, [], [], [], Option.none⟩)) =
      lookupA "votes"
        [("title", .str "N/A"), ("year", .str "N/A"), ("rating", .str "N/A"),
          ("votes", Val.none), ("image_url", .str "N/A"),
          ("detail_url", Val.none)] :=
  merge_details_preserves_basic_fields
    ⟨Option.none, [], Option.none, Option.none, Option.none, Option.none⟩
    _ pySetDedup ⟨[], Option.none, [], [], [], Option.none⟩
    (by decide) "votes" (by simp)

/-! ## C4 and C8: the orchestrator loop -/

lemma scrapeLoop_ok (incl : Bool) (fd : String → Except PyErr DetailPage)
    (ps : List String → List String) :
    ∀ l : List MovieElement,
      (∀ el ∈ l, (recordOf incl fd ps el).isOk = true) →
      ∃ recs fetches sleeps,
        scrapeLoop incl fd ps l = .ok (recs, fetches, sleeps) ∧
        List.Forall₂ (fun el r => recordOf incl fd ps el = .ok r) l recs := by
  intro l
  induction l with
  | nil => exact fun _ => ⟨[], 0, 0, rfl, List.Forall₂.nil⟩
  | cons el rest ih =>
    intro hall
    have hel := hall el (List.mem_cons_self _ _)
    obtain ⟨recs, f, s, hloop, hfa⟩ :=
      ih (fun x hx => hall x (List.mem_cons_of_mem _ hx))
    cases hbd : extract_basic_data el with
    | error e =>
      simp only [recordOf, hbd] at hel
      simp [Except.isOk, Except.toBool] at hel
    | ok movie_data =>
      cases hdu : lookupA "detail_url" movie_data with
      | none =>
        refine ⟨movie_data :: recs, f, s, ?_, ?_⟩
        · simp only [scrapeLoop, hbd, hdu, hloop]
        · exact List.Forall₂.cons (by simp only [recordOf, hbd, hdu]) hfa
      | some v =>
        cases v with
        | str u =>
          by_cases hcond : incl = true ∧ ¬ u = ""
          · cases hfd : fd u with
            | error e2 =>
              simp only [recordOf, hbd, hdu, if_pos hcond, hfd] at hel
              simp [Except.isOk, Except.toBool] at hel
            | ok page =>
              refine ⟨pyDictUpdate movie_data (extract_movie_details ps page)
                :: recs, f + 1, s + 1, ?_, ?_⟩
              · simp only [scrapeLoop, hbd, hdu, if_pos hcond, hfd, hloop]
              · exact List.Forall₂.cons
                  (by simp only [recordOf, hbd, hdu, if_pos hcond, hfd]) hfa
          · refine ⟨movie_data :: recs, f, s, ?_, ?_⟩
            · simp only [scrapeLoop, hbd, hdu, if_neg hcond, hloop]
            · exact List.Forall₂.cons
                (by simp only [recordOf, hbd, hdu, if_neg hcond]) hfa
        | int n =>
          refine ⟨movie_data :: recs, f, s, ?_, ?_⟩
          · simp only [scrapeLoop, hbd, hdu, hloop]
          · exact List.Forall₂.cons (by simp only [recordOf, hbd, hdu]) hfa
        | none =>
          refine ⟨movie_data :: recs, f, s, ?_, ?_⟩
          · simp only [scrapeLoop, hbd, hdu, hloop]
          · exact List.Forall₂.cons (by simp only [recordOf, hbd, hdu]) hfa

/-- C4 (counterexample).  `if limit:` treats a cap of 0 as "no cap": on
a one-element list a requested cap of 0 yields one record, not
`min 0 1 = 0`. -/
theorem scrape_cap_zero_cex :
    (scrape_top_movies
        [⟨Option.none, [], Option.none, Option.none, Option.none,
          Option.none⟩]
        (Option.some 0) false (fun _ => .error (.exception "no network"))
        pySetDedup).map (fun t => t.1.length) = .ok 1 ∧
      (1 : Nat) ≠ min 0 1 :=
  ⟨by decide, by decide⟩

/-- C4 (amended).  For every positive cap `N`, and whatever the number
of available entries, `scrape_top_movies` yields exactly
`min N available` records, and the records correspond one-to-one, in
order, to the first `N` list entries (a cap of 0 is falsy in Python and
disables truncation instead). -/
theorem scrape_cap_yields_min (elements : List MovieElement) (N : Nat)
    (hN : 1 ≤ N) (include_details : Bool)
    (fd : String → Except PyErr DetailPage)
    (ps : List String → List String)
    (hall : ∀ el ∈ elements, (recordOf include_details fd ps el).isOk = true) :
    ∃ recs fetches sleeps,
      scrape_top_movies elements (Option.some N) include_details fd ps =
        .ok (recs, fetches, sleeps) ∧
      recs.length = min N elements.length ∧
      List.Forall₂ (fun el r => recordOf include_details fd ps el = .ok r)
        (elements.take N) recs := by
  have hN0 : N ≠ 0 := Nat.one_le_iff_ne_zero.mp hN
  have hlim : applyLimit (Option.some N) elements = elements.take N := by
    simp [applyLimit, limitTruthy, hN0]
  obtain ⟨recs, f, s, hloop, hfa⟩ :=
    scrapeLoop_ok include_details fd ps (elements.take N)
      (fun x hx => hall x (List.take_subset _ _ hx))
  refine ⟨recs, f, s, ?_, ?_, hfa⟩
  · rw [scrape_top_movies, hlim, hloop]
  · rw [← List.Forall₂.length_eq hfa, List.length_take]

/-- Witness for C4: a positive cap of 2 over three trivial entries
yields `min 2 3 = 2` records. -/
theorem scrape_cap_yields_min_witness :
    ∃ recs fetches sleeps,
      scrape_top_movies
          [⟨Option.none, [], Option.none, Option.none, Option.none,
            Option.none⟩,
           ⟨Option.none, [], Option.none, Option.none, Option.none,
            Option.none⟩,
           ⟨Option.none, [], Option.none, Option.none, Option.none,
            Option.none⟩]
          (Option.some 2) false
          (fun _ => .error (.exception "no network")) pySetDedup =
        .ok (recs, fetches, sleeps) ∧
      recs.length = min 2 3 ∧
      List.Forall₂
        (fun el r => recordOf false
          (fun _ => .error (.exception "no network")) pySetDedup el = .ok r)
        (List.take 2
          [⟨Option.none, [], Option.none, Option.none, Option.none,
            Option.none⟩,
           ⟨Option.none, [], Option.none, Option.none, Option.none,
            Option.none⟩,
           ⟨Option.none, [], Option.none, Option.none, Option.none,
            Option.none⟩]) recs :=
  scrape_cap_yields_min _ 2 (by decide) false _ pySetDedup
    (fun el hel => by
      simp only [List.mem_cons, List.not_mem_nil, or_false] at hel
      rcases hel with rfl | rfl | rfl <;> decide)

lemma scrapeLoop_no_details (fd : String → Except PyErr DetailPage)
    (ps : List String → List String) :
    ∀ l : List MovieElement,
      (∀ el ∈ l, (extract_basic_data el).isOk = true) →
      ∃ recs, scrapeLoop false fd ps l = .ok (recs, 0, 0) ∧
        List.Forall₂ (fun el r => extract_basic_data el = .ok r) l recs := by
  intro l
  induction l with
  | nil => exact fun _ => ⟨[], rfl, List.Forall₂.nil⟩
  | cons el rest ih =>
    intro hall
    have hel := hall el (List.mem_cons_self _ _)
    obtain ⟨recs, hloop, hfa⟩ :=
      ih (fun x hx => hall x (List.mem_cons_of_mem _ hx))
    cases hbd : extract_basic_data el with
    | error e =>
      rw [hbd] at hel
      simp [Except.isOk, Except.toBool] at hel
    | ok movie_data =>
      have hcond : ¬ ((false : Bool) = true ∧ True) := by simp
      cases hdu : lookupA "detail_url" movie_data with
      | none =>
        exact ⟨movie_data :: recs,
          by simp only [scrapeLoop, hbd, hdu, hloop],
          List.Forall₂.cons hbd hfa⟩
      | some v =>
        cases v with
        | str u =>
          refine ⟨movie_data :: recs, ?_, List.Forall₂.cons hbd hfa⟩
          have hcond' : ¬ ((false : Bool) = true ∧ ¬ u = "") := by simp
          simp only [scrapeLoop, hbd, hdu, if_neg hcond', hloop]
        | int n =>
          exact ⟨movie_data :: recs,
            by simp only [scrapeLoop, hbd, hdu, hloop],
            List.Forall₂.cons hbd hfa⟩
        | none =>
          exact ⟨movie_data :: recs,
            by simp only [scrapeLoop, hbd, hdu, hloop],
            List.Forall₂.cons hbd hfa⟩

/-- C8.  With enrichment disabled, `scrape_top_movies` performs no
detail-page fetch and no one-second sleep for any entry — whether or
not the entry carries a detail URL — and every produced record is
exactly the basic-extraction record of its entry. -/
theorem scrape_without_details_no_fetch_no_sleep
    (elements : List MovieElement) (limit : Option Nat)
    (fd : String → Except PyErr DetailPage)
    (ps : List String → List String)
    (hall : ∀ el ∈ elements, (extract_basic_data el).isOk = true) :
    ∃ recs, scrape_top_movies elements limit false fd ps = .ok (recs, 0, 0) ∧
      List.Forall₂ (fun el r => extract_basic_data el = .ok r)
        (applyLimit limit elements) recs := by
  have hsub : ∀ x ∈ applyLimit limit elements, x ∈ elements := by
    intro x hx
    rw [applyLimit] at hx
    split at hx
    · exact List.take_subset _ _ hx
    · exact hx
  obtain ⟨recs, hloop, hfa⟩ :=
    scrapeLoop_no_details fd ps (applyLimit limit elements)
      (fun x hx => hall x (hsub x hx))
  exact ⟨recs, by rw [scrape_top_movies, hloop], hfa⟩

/-- Witness for C8 at an element that does carry a detail URL: zero
fetches, zero sleeps. -/
theorem scrape_without_details_witness :
    ∃ recs, scrape_top_movies
        [⟨Option.some "1. The Shawshank Redemption", ["1994"],
          Option.some "9.3", Option.some "(3.2M)", Option.none,
          Option.some (Option.some "/title/tt0111161/?ref_=chttp_t_1")⟩]
        Option.none false (fun _ => .error (.exception "no network"))
        pySetDedup = .ok (recs, 0, 0) ∧
      List.Forall₂ (fun el r => extract_basic_data el = .ok r)
        (applyLimit Option.none
          [⟨Option.some "1. The Shawshank Redemption", ["1994"],
            Option.some "9.3", Option.some "(3.2M)", Option.none,
            Option.some (Option.some "/title/tt0111161/?ref_=chttp_t_1")⟩])
        recs :=
  scrape_without_details_no_fetch_no_sleep _ Option.none _ pySetDedup
    (fun el hel => by
      simp only [List.mem_cons, List.not_mem_nil, or_false] at hel
      rcases hel with rfl
      decide)

/-! ## C9: contributor roles survive a split on the join separator -/

lemma splitAuxCS_append_sep (t : List Char) :
    ∀ (p acc : List Char), hasCS p = false →
      splitAuxCS (p ++ ',' :: ' ' :: t) acc =
        (acc.reverse ++ p) :: splitAuxCS t [] := by
  intro p
  induction p with
  | nil =>
    intro acc _
    rw [List.nil_append, splitAuxCS,
      if_pos (⟨rfl, rfl⟩ : (',' : Char) = ',' ∧ (' ' : Char) = ' ')]
    simp
  | cons c p' ih =>
    intro acc hp
    cases p' with
    | nil =>
      have hc : ¬ (c = ',' ∧ (',' : Char) = ' ') := fun h =>
        absurd h.2 (by decide)
      rw [List.cons_append, List.nil_append, splitAuxCS, if_neg hc,
        splitAuxCS,
        if_pos (⟨rfl, rfl⟩ : (',' : Char) = ',' ∧ (' ' : Char) = ' ')]
      simp
    | cons c₂ p'' =>
      rw [hasCS] at hp
      by_cases hc : c = ',' ∧ c₂ = ' '
      · rw [if_pos hc] at hp
        cases hp
      · rw [if_neg hc] at hp
        rw [List.cons_append, List.cons_append, splitAuxCS, if_neg hc,
          ← List.cons_append, ih (c :: acc) hp]
        simp

lemma splitAuxCS_no_sep :
    ∀ (p acc : List Char), hasCS p = false →
      splitAuxCS p acc = [acc.reverse ++ p] := by
  intro p
  induction p with
  | nil => intro acc _; simp [splitAuxCS]
  | cons c p' ih =>
    intro acc hp
    cases p' with
    | nil => simp [splitAuxCS]
    | cons c₂ p'' =>
      rw [hasCS] at hp
      by_cases hc : c = ',' ∧ c₂ = ' '
      · rw [if_pos hc] at hp
        cases hp
      · rw [if_neg hc] at hp
        rw [splitAuxCS, if_neg hc, ih (c :: acc) hp]
        simp

lemma splitCS_joinCS :
    ∀ parts : List (List Char), parts ≠ [] →
      (∀ p ∈ parts, hasCS p = false) →
      splitAuxCS (joinChCS parts) [] = parts := by
  intro parts
  induction parts with
  | nil => intro h _; cases h rfl
  | cons p ps ih =>
    intro _ hall
    cases ps with
    | nil =>
      rw [joinChCS, splitAuxCS_no_sep p []
        (hall p (List.mem_cons_self _ _))]
      rfl
    | cons q ps' =>
      rw [joinChCS, splitAuxCS_append_sep _ p []
        (hall p (List.mem_cons_self _ _))]
      rw [ih (fun h => List.noConfusion h)
        (fun x hx => hall x (List.mem_cons_of_mem _ hx))]
      rfl
      exact fun h => List.noConfusion h

lemma pySplitCS_pyJoinCS (l : List String) (hne : l ≠ [])
    (hsep : ∀ t ∈ l, hasCS t.data = false) :
    pySplitCS (pyJoinCS l) = l := by
  have hmapne : l.map String.data ≠ [] := fun h =>
    hne (List.map_eq_nil_iff.mp h)
  have hall : ∀ p ∈ l.map String.data, hasCS p = false := by
    intro p hp
    obtain ⟨t, ht, rfl⟩ := List.mem_map.mp hp
    exact hsep t ht
  show (splitAuxCS (String.mk (joinChCS (l.map String.data))).data []).map
    String.mk = l
  rw [show (String.mk (joinChCS (l.map String.data))).data =
    joinChCS (l.map String.data) from rfl]
  rw [splitCS_joinCS (l.map String.data) hmapne hall, List.map_map]
  have hid : (String.mk ∘ String.data) = id := funext fun s => rfl
  rw [hid, List.map_id]

lemma role_split_set (links out : List String) (hnd : out.Nodup)
    (hmem : ∀ x, x ∈ out ↔ x ∈ links) (hne : links ≠ [])
    (hsep : ∀ t ∈ links, hasCS t.data = false) :
    (pySplitCS (pyJoinCS out)).toFinset = links.toFinset ∧
      (pySplitCS (pyJoinCS out)).Nodup := by
  have hout_ne : out ≠ [] := by
    obtain ⟨x, hx⟩ := List.exists_mem_of_ne_nil links hne
    exact List.ne_nil_of_mem ((hmem x).mpr hx)
  have hout_sep : ∀ t ∈ out, hasCS t.data = false :=
    fun t ht => hsep t ((hmem t).mp ht)
  rw [pySplitCS_pyJoinCS out hout_ne hout_sep]
  refine ⟨?_, hnd⟩
  ext x
  simp [List.mem_toFinset, hmem x]

/-- C9 (counterexample).  A director name containing the separator
`", "` breaks the split-back set-equality: with the single link text
`"a, b"`, the joined output splits into `{"a", "b"}`, not
`{"a, b"}`. -/
theorem details_roles_split_cex :
    lookupA "directors"
        (extract_movie_details pySetDedup
          ⟨[], Option.none, ["a, b"], [], [], Option.none⟩) =
      Option.some (.str "a, b") ∧
    pySplitCS "a, b" = ["a", "b"] ∧
    (pySplitCS "a, b").toFinset ≠ (["a, b"] : List String).toFinset :=
  ⟨by decide, by decide, by decide⟩

/-- C9 (amended).  For each contributor role, provided the role has at
least one link and no link text contains the separator `", "`, the
comma-joined output string of `extract_movie_details`, split back on
`", "`, is set-equal to the set of link texts of that role, with each
distinct name appearing exactly once; this holds for every duplicate-free
reordering `pySet` of the link texts, i.e. for any iteration order of
Python's `set`. -/
theorem details_contributor_roles (page : DetailPage)
    (pySet : List String → List String)
    (hset : ∀ l, (pySet l).Nodup ∧ ∀ x, x ∈ pySet l ↔ x ∈ l)
    (hd : page.directorLinks ≠ [] ∧
      ∀ t ∈ page.directorLinks, hasCS t.data = false)
    (hw : page.writerLinks ≠ [] ∧
      ∀ t ∈ page.writerLinks, hasCS t.data = false)
    (ha : page.actorLinks ≠ [] ∧
      ∀ t ∈ page.actorLinks, hasCS t.data = false) :
    ∃ jd jw ja,
      lookupA "directors" (extract_movie_details pySet page) =
        Option.some (.str jd) ∧
      lookupA "writers" (extract_movie_details pySet page) =
        Option.some (.str jw) ∧
      lookupA "actors" (extract_movie_details pySet page) =
        Option.some (.str ja) ∧
      ((pySplitCS jd).toFinset = page.directorLinks.toFinset ∧
        (pySplitCS jd).Nodup) ∧
      ((pySplitCS jw).toFinset = page.writerLinks.toFinset ∧
        (pySplitCS jw).Nodup) ∧
      ((pySplitCS ja).toFinset = page.actorLinks.toFinset ∧
        (pySplitCS ja).Nodup) := by
  refine ⟨pyJoinCS (pySet page.directorLinks),
    pyJoinCS (pySet page.writerLinks), pyJoinCS (pySet page.actorLinks),
    rfl, rfl, rfl, ?_, ?_, ?_⟩
  · exact role_split_set page.directorLinks (pySet page.directorLinks)
      (hset _).1 (hset _).2 hd.1 hd.2
  · exact role_split_set page.writerLinks (pySet page.writerLinks)
      (hset _).1 (hset _).2 hw.1 hw.2
  · exact role_split_set page.actorLinks (pySet page.actorLinks)
      (hset _).1 (hset _).2 ha.1 ha.2

/-- Witness for C9 at a concrete detail page, with `pySet` instantiated
to first-occurrence deduplication. -/
theorem details_contributor_roles_witness :
    ∃ jd jw ja,
      lookupA "directors"
          (extract_movie_details pySetDedup
            ⟨["Drama"], Option.some "2h 22m", ["Frank Darabont"],
              ["Stephen King", "Frank Darabont", "Stephen King"],
              ["Tim Robbins", "Morgan Freeman"], Option.some "plot"⟩) =
        Option.some (.str jd) ∧
      lookupA "writers"
          (extract_movie_details pySetDedup
            ⟨["Drama"], Option.some "2h 22m", ["Frank Darabont"],
              ["Stephen King", "Frank Darabont", "Stephen King"],
              ["Tim Robbins", "Morgan Freeman"], Option.some "plot"⟩) =
        Option.some (.str jw) ∧
      lookupA "actors"
          (extract_movie_details pySetDedup
            ⟨["Drama"], Option.some "2h 22m", ["Frank Darabont"],
              ["Stephen King", "Frank Darabont", "Stephen King"],
              ["Tim Robbins", "Morgan Freeman"], Option.some "plot"⟩) =
        Option.some (.str ja) ∧
      ((pySplitCS jd).toFinset = (["Frank Darabont"] : List String).toFinset ∧
        (pySplitCS jd).Nodup) ∧
      ((pySplitCS jw).toFinset =
          (["Stephen King", "Frank Darabont", "Stephen King"] :
            List String).toFinset ∧
        (pySplitCS jw).Nodup) ∧
      ((pySplitCS ja).toFinset =
          (["Tim Robbins", "Morgan Freeman"] : List String).toFinset ∧
        (pySplitCS ja).Nodup) :=
  details_contributor_roles
    ⟨["Drama"], Option.some "2h 22m", ["Frank Darabont"],
      ["Stephen King", "Frank Darabont", "Stephen King"],
      ["Tim Robbins", "Morgan Freeman"], Option.some "plot"⟩
    pySetDedup
    (fun l => ⟨List.nodup_dedup l, fun x => List.mem_dedup⟩)
    ⟨by decide, by decide⟩ ⟨by decide, by decide⟩ ⟨by decide, by decide⟩

end Scraper
